import Mathlib

/-!
Shallow embedding of the CashpoolRPG Telegram-bot economy (`src/main.py`):
player profiles, loot chests, inventory/equipment, the marketplace and the
tournament queue.  Python dicts become association lists keyed by the
(numeric) user id — `str(uid)` keying in the source is injective on ids, so
numeric keys are equivalent — and the random loot roll becomes an explicit
`Roll` argument.  Python ints are `Int` where values can go negative
(tokens, chests, prices, parsed command arguments) and `Nat` for item ids
and powers, which the code only ever creates non-negative.
-/

namespace Cashpool

/-- An item, as built in `open_chest` (`main.py:246-252`):
`{id, name, slot, rarity, power}`. -/
structure Item where
  id : Nat
  name : String
  slot : String
  rarity : String
  power : Nat
deriving Repr, DecidableEq

/-- A player profile, as created by `ensure_player` (`main.py:59-78`).
`equipped` is the slot-name-keyed dict (`slot -> item_id or None`);
it is kept as an association list because Python dict update can in
principle add keys. -/
structure Player where
  username : String
  tokens : Int
  chests : Int
  items : List Item
  equipped : List (String × Option Nat)
  referrer : Option Nat
deriving Repr, DecidableEq

/-- A marketplace listing, as built in `sell` (`main.py:421-425`). -/
structure Listing where
  seller_id : Nat
  item : Item
  price : Int
deriving Repr, DecidableEq

/-- The whole in-memory state (`main.py:51-53`): the `players` dict, the
`market` list and `tournament["players"]`. -/
structure GameState where
  players : List (Nat × Player)
  market : List Listing
  tournament : List Nat
deriving Repr, DecidableEq

/-- The initial state when no data files exist: `{}`, `[]`, `{"players": []}`. -/
def init : GameState := { players := [], market := [], tournament := [] }

/-- Dict lookup on the players map (first matching key). -/
def pfind : List (Nat × Player) → Nat → Option Player
  | [], _ => none
  | (k, v) :: rest, uid => if k = uid then some v else pfind rest uid

/-- Dict assignment on the players map: replace the binding in place if the
key is present, append a fresh binding otherwise (Python dict semantics). -/
def pset : List (Nat × Player) → Nat → Player → List (Nat × Player)
  | [], uid, p => [(uid, p)]
  | (k, v) :: rest, uid, p =>
    if k = uid then (uid, p) :: rest else (k, v) :: pset rest uid p

/-- The fixed slot list `SLOTS` (`main.py:96`). -/
def SLOTS : List String := ["head", "body", "weapon", "legs", "trinket"]

/-- The fresh equipment dict of `ensure_player` (`main.py:67-73`). -/
def initEquipped : List (String × Option Nat) :=
  [("head", none), ("body", none), ("weapon", none), ("legs", none),
   ("trinket", none)]

/-- The fresh profile created by `ensure_player` (`main.py:62-75`). -/
def freshPlayer (username : String) : Player :=
  { username := username, tokens := 0, chests := 0, items := [],
    equipped := initEquipped, referrer := none }

/-- `ensure_player` on the players map alone (`main.py:59-78`): create the
profile if absent, otherwise refresh the username. -/
def ensureP (ps : List (Nat × Player)) (uid : Nat) (username : String) :
    List (Nat × Player) :=
  match pfind ps uid with
  | none => pset ps uid (freshPlayer username)
  | some p => pset ps uid { p with username := username }

/-- `ensure_player` lifted to the whole state. -/
def ensure_player (s : GameState) (uid : Nat) (username : String) : GameState :=
  { s with players := ensureP s.players uid username }

/-- Result of `/join` (`main.py:164-187`). -/
inductive JoinResult
  | alreadyIn
  | joined (count : Nat)
deriving Repr, DecidableEq

/-- `/join` (`main.py:164-187`): ensure the profile, reject only a duplicate
identity, otherwise append to the tournament list.  There is no capacity
check; `count == 5` merely triggers an announcement message. -/
def joinOp (s : GameState) (uid : Nat) (username : String) :
    GameState × JoinResult :=
  let s1 := ensure_player s uid username
  if uid ∈ s1.tournament then (s1, .alreadyIn)
  else
    let s2 := { s1 with tournament := s1.tournament ++ [uid] }
    (s2, .joined s2.tournament.length)

/-- Result of `/winner` (`main.py:190-231`). -/
inductive WinnerResult
  | notAuthorized
  | noTable
  | usage
  | notInTable
  | ok (winner_id : Nat)
deriving Repr, DecidableEq

/-- The winner lookup loop (`main.py:205-209`): the first queued id whose
stored username equals the target (a missing profile compares unequal). -/
def findWinner (ps : List (Nat × Player)) :
    List Nat → String → Option Nat
  | [], _ => none
  | uid :: rest, target =>
    match pfind ps uid with
    | some p => if p.username = target then some uid else findWinner ps rest target
    | none => findWinner ps rest target

/-- `players[str(uid)]["chests"] += 1` (`main.py:217`); a missing key would
raise in Python, modelled as a no-op and excluded by presence hypotheses. -/
def addChest (ps : List (Nat × Player)) (uid : Nat) : List (Nat × Player) :=
  match pfind ps uid with
  | some p => pset ps uid { p with chests := p.chests + 1 }
  | none => ps

/-- The chest-distribution loop of `/winner` (`main.py:215-217`): for each
queued id, re-ensure the caller's own profile ("just to be safe") and
increment that id's chest count. -/
def chestLoop (caller : Nat) (callerName : String)
    (ps : List (Nat × Player)) (queue : List Nat) : List (Nat × Player) :=
  queue.foldl (fun acc uid => addChest (ensureP acc caller callerName) uid) ps

/-- `/winner` (`main.py:190-231`): admin check, empty-table check, args
check, username lookup; then every queued player gets one chest (the loop
also re-ensures the caller's profile each iteration, `main.py:216`), the
winner one more, and the table is reset. -/
def winnerOp (s : GameState) (isAdmin : Bool) (caller : Nat)
    (callerName : String) (target : Option String) :
    GameState × WinnerResult :=
  if !isAdmin then (s, .notAuthorized)
  else if s.tournament = [] then (s, .noTable)
  else
    match target with
    | none => (s, .usage)
    | some t =>
      match findWinner s.players s.tournament t with
      | none => (s, .notInTable)
      | some wid =>
        let ps1 := chestLoop caller callerName s.players s.tournament
        let ps2 := addChest ps1 wid
        ({ s with players := ps2, tournament := [] }, .ok wid)

/-- An outcome of the loot engine `roll_chest` (`main.py:133-140`): rarity,
item template and token bonus, made an explicit input to `open_chest`. -/
structure Roll where
  rarity : String
  name : String
  slot : String
  power : Nat
  tokens : Int
deriving Repr, DecidableEq

/-- `new_item_id` (`main.py:126-130`): `(max(existing) + 1) if existing
else 1` over the player's current item ids. -/
def new_item_id (p : Player) : Nat :=
  let existing := p.items.map Item.id
  if existing.isEmpty then 1 else existing.foldl Nat.max 0 + 1

/-- Result of `/open_chest` (`main.py:234-263`). -/
inductive OpenResult
  | noChests
  | opened (it : Item) (bonus : Int)
deriving Repr, DecidableEq

/-- `/open_chest` (`main.py:234-263`): ensure the profile; fail if
`chests <= 0`; otherwise decrement chests, build the rolled item with a
fresh id, append it, and add the token bonus. -/
def open_chest (s : GameState) (uid : Nat) (username : String) (r : Roll) :
    GameState × OpenResult :=
  let s1 := ensure_player s uid username
  match pfind s1.players uid with
  | none => (s1, .noChests)
  | some p =>
    if p.chests ≤ 0 then (s1, .noChests)
    else
      let it : Item :=
        { id := new_item_id p, name := r.name, slot := r.slot,
          rarity := r.rarity, power := r.power }
      let p' := { p with chests := p.chests - 1, items := p.items ++ [it],
                         tokens := p.tokens + r.tokens }
      ({ s1 with players := pset s1.players uid p' }, .opened it r.tokens)

/-- Dict assignment on the equipment dict: `p["equipped"][slot] = v`. -/
def setSlot (eq : List (String × Option Nat)) (slot : String)
    (v : Option Nat) : List (String × Option Nat) :=
  match eq with
  | [] => [(slot, v)]
  | (k, x) :: rest =>
    if k = slot then (slot, v) :: rest else (k, x) :: setSlot rest slot v

/-- `p["equipped"].get(slot)` (`main.py:372`): `none` both for a missing
key and for a `None` value, as in Python. -/
def getSlot (eq : List (String × Option Nat)) : String → Option Nat
  | slot =>
    match eq with
    | [] => none
    | (k, x) :: rest => if k = slot then x else getSlot rest slot

/-- Result of `/equip` (`main.py:328-354`). -/
inductive EquipResult
  | invalidIndex
  | equipped (it : Item)
deriving Repr, DecidableEq

/-- `/equip` (`main.py:328-354`): `idx` is the already-parsed
`int(args[0]) - 1`; bounds-check it, then point the item's slot at the
item's id (silently replacing whatever was there). -/
def equipOp (s : GameState) (uid : Nat) (username : String) (idx : Int) :
    GameState × EquipResult :=
  let s1 := ensure_player s uid username
  match pfind s1.players uid with
  | none => (s1, .invalidIndex)
  | some p =>
    if idx < 0 ∨ (p.items.length : Int) ≤ idx then (s1, .invalidIndex)
    else
      match p.items.get? idx.toNat with
      | none => (s1, .invalidIndex)
      | some it =>
        let p' := { p with equipped := setSlot p.equipped it.slot (some it.id) }
        ({ s1 with players := pset s1.players uid p' }, .equipped it)

/-- Result of `/unequip` (`main.py:357-378`). -/
inductive UnequipResult
  | invalidSlot
  | slotEmpty
  | cleared
deriving Repr, DecidableEq

/-- `/unequip` (`main.py:357-378`): `slot` is the already-lowercased
argument; reject unknown slots and empty slots, otherwise clear. -/
def unequipOp (s : GameState) (uid : Nat) (username : String)
    (slot : String) : GameState × UnequipResult :=
  let s1 := ensure_player s uid username
  match pfind s1.players uid with
  | none => (s1, .invalidSlot)
  | some p =>
    if slot ∉ SLOTS then (s1, .invalidSlot)
    else if getSlot p.equipped slot = none then (s1, .slotEmpty)
    else
      let p' := { p with equipped := setSlot p.equipped slot none }
      ({ s1 with players := pset s1.players uid p' }, .cleared)

/-- Result of `/sell` (`main.py:401-431`). -/
inductive SellResult
  | invalidIndex
  | listed
deriving Repr, DecidableEq

/-- `/sell` (`main.py:401-431`): `idx` and `price` are the already-parsed
`int(args[0]) - 1` and `int(args[1])`.  Only the index is validated — the
price is accepted as any integer — then the item is popped from the
seller's items and appended to the market as a listing.  The equipment
dict is not touched. -/
def sellOp (s : GameState) (uid : Nat) (username : String)
    (idx price : Int) : GameState × SellResult :=
  let s1 := ensure_player s uid username
  match pfind s1.players uid with
  | none => (s1, .invalidIndex)
  | some p =>
    if idx < 0 ∨ (p.items.length : Int) ≤ idx then (s1, .invalidIndex)
    else
      match p.items.get? idx.toNat with
      | none => (s1, .invalidIndex)
      | some it =>
        let p' := { p with items := p.items.eraseIdx idx.toNat }
        let listing : Listing := { seller_id := uid, item := it, price := price }
        ({ s1 with players := pset s1.players uid p',
                   market := s1.market ++ [listing] }, .listed)

/-- The per-rarity fee numerator (percent) of `fee_map`
(`main.py:461-462`): Common 2, Uncommon 4, Rare 6, default 2. -/
def feePercent (rarity : String) : Int :=
  if rarity = "Common" then 2
  else if rarity = "Uncommon" then 4
  else if rarity = "Rare" then 6
  else 2

/-- `fee = int(price * fee_rate)` (`main.py:463`).  Python's `int()` on a
float truncates toward zero; for the rates 0.02/0.04/0.06 and any price of
realistic magnitude the double-precision product truncates exactly like
the exact rational `price * percent / 100`, so the fee is embedded as
truncated division (`Int.tdiv`), not floor division. -/
def fee_of (price : Int) (rarity : String) : Int :=
  Int.tdiv (price * feePercent rarity) 100

/-- Result of `/buy` (`main.py:434-485`). -/
inductive BuyResult
  | invalidListing
  | insufficient
  | bought (it : Item) (price fee seller_take : Int)
deriving Repr, DecidableEq

/-- `if seller_id in players: players[seller_id]["tokens"] += seller_take`
(`main.py:470-471`): credit the seller only if the id is a key. -/
def creditSeller (ps : List (Nat × Player)) (sid : Nat) (take : Int) :
    List (Nat × Player) :=
  match pfind ps sid with
  | some sp => pset ps sid { sp with tokens := sp.tokens + take }
  | none => ps

/-- `p["items"].append(item)` (`main.py:474`): append the item to the
buyer's collection (the buyer is present; absent is a dead branch). -/
def giveItem (ps : List (Nat × Player)) (uid : Nat) (it : Item) :
    List (Nat × Player) :=
  match pfind ps uid with
  | some bp => pset ps uid { bp with items := bp.items ++ [it] }
  | none => ps

/-- `/buy` (`main.py:434-485`): ensure the buyer; bounds-check the
listing index; fail if `tokens < price`; otherwise compute the fee, debit
the buyer by the full price, re-ensure the buyer (`main.py:469`), credit
the seller `price - fee` only if the seller id is a key of `players`,
append the item to the buyer's items, and pop the listing. -/
def buyOp (s : GameState) (uid : Nat) (username : String) (idx : Int) :
    GameState × BuyResult :=
  let s1 := ensure_player s uid username
  match pfind s1.players uid with
  | none => (s1, .invalidListing)
  | some p =>
    if idx < 0 ∨ (s1.market.length : Int) ≤ idx then (s1, .invalidListing)
    else
      match s1.market.get? idx.toNat with
      | none => (s1, .invalidListing)
      | some listing =>
        if p.tokens < listing.price then (s1, .insufficient)
        else
          let fee := fee_of listing.price listing.item.rarity
          let seller_take := listing.price - fee
          let ps1 := pset s1.players uid { p with tokens := p.tokens - listing.price }
          let ps2 := ensureP ps1 uid username
          let ps3 := creditSeller ps2 listing.seller_id seller_take
          let ps4 := giveItem ps3 uid listing.item
          ({ s1 with players := ps4,
                     market := s1.market.eraseIdx idx.toNat },
           .bought listing.item listing.price fee seller_take)

/-- One user command, with the loot roll made explicit for `open_chest`. -/
inductive Action
  | join (uid : Nat) (username : String)
  | winner (isAdmin : Bool) (caller : Nat) (callerName : String)
           (target : Option String)
  | openChest (uid : Nat) (username : String) (roll : Roll)
  | equip (uid : Nat) (username : String) (idx : Int)
  | unequip (uid : Nat) (username : String) (slot : String)
  | sell (uid : Nat) (username : String) (idx price : Int)
  | buy (uid : Nat) (username : String) (idx : Int)
deriving Repr, DecidableEq

/-- The state transition of one command (reply discarded). -/
def step (s : GameState) : Action → GameState
  | .join uid u => (joinOp s uid u).1
  | .winner a c cn t => (winnerOp s a c cn t).1
  | .openChest uid u r => (open_chest s uid u r).1
  | .equip uid u i => (equipOp s uid u i).1
  | .unequip uid u sl => (unequipOp s uid u sl).1
  | .sell uid u i pr => (sellOp s uid u i pr).1
  | .buy uid u i => (buyOp s uid u i).1

/-- Running a command sequence from a state. -/
def run (s : GameState) (acts : List Action) : GameState :=
  acts.foldl step s

/-! ### Observation functions -/

/-- Sum a player attribute over the whole players map. -/
def sumBy (f : Player → Int) (ps : List (Nat × Player)) : Int :=
  (ps.map (fun kp => f kp.2)).sum

/-- The chest count stored for an id (0 when the profile is absent). -/
def chestsP (ps : List (Nat × Player)) (uid : Nat) : Int :=
  match pfind ps uid with
  | some p => p.chests
  | none => 0

/-- Total item count: every player's collection plus the active listings. -/
def totalItems (s : GameState) : Int :=
  sumBy (fun p => (p.items.length : Int)) s.players + (s.market.length : Int)

/-- Total token supply across all player profiles. -/
def totalTokens (s : GameState) : Int :=
  sumBy Player.tokens s.players

/-! ### Concrete states and runs used by witnesses and counterexamples -/

/-- A concrete two-player table used to witness tournament resolution. -/
def sTable : GameState :=
  (run init [.join 1 "alice", .join 2 "bob"])

/-- Six `/join` calls by six distinct identities, from the empty state. -/
def sixJoins : List Action :=
  [.join 1 "u1", .join 2 "u2", .join 3 "u3", .join 4 "u4", .join 5 "u5",
   .join 6 "u6"]

/-- A bare state whose queue already holds five distinct identities. -/
def queue5 : GameState :=
  { players := [], market := [], tournament := [1, 2, 3, 4, 5] }

/-- A fixed Common-tier loot roll (a possible `roll_chest` outcome). -/
def roll1 : Roll :=
  { rarity := "Common", name := "Lucky Token", slot := "trinket",
    power := 1, tokens := 10 }

/-- One player who won a one-person table and opened one chest: alice has
10 tokens, 1 chest left and a single item with id 1. -/
def sAlice : GameState :=
  run init [.join 1 "alice", .winner true 99 "admin" (some "alice"),
            .openChest 1 "alice" roll1]

/-- Alice's profile inside `sAlice`. -/
def pAlice : Player :=
  { username := "alice", tokens := 10, chests := 1,
    items := [{ id := 1, name := "Lucky Token", slot := "trinket",
                rarity := "Common", power := 1 }],
    equipped := initEquipped, referrer := none }

/-- The item a successful `open_chest` builds (`main.py:246-252`). -/
def rolledItem (p : Player) (r : Roll) : Item :=
  { id := new_item_id p, name := r.name, slot := r.slot, rarity := r.rarity,
    power := r.power }

/-- The profile after a successful `open_chest` (`main.py:243-254`). -/
def openedPlayer (p : Player) (r : Roll) : Player :=
  { p with chests := p.chests - 1, items := p.items ++ [rolledItem p r],
           tokens := p.tokens + r.tokens }

/-- Alice's single item inside `sAlice`. -/
def item1 : Item :=
  { id := 1, name := "Lucky Token", slot := "trinket", rarity := "Common",
    power := 1 }

/-- The seller's profile after `/sell` pops item `idx` (`main.py:419`). -/
def listedPlayer (p : Player) (idx : Nat) : Player :=
  { p with items := p.items.eraseIdx idx }

/-- The listing `/sell` appends (`main.py:421-425`). -/
def mkListing (uid : Nat) (it : Item) (price : Int) : Listing :=
  { seller_id := uid, item := it, price := price }

/-- The buyer's profile right after the debit `p["tokens"] -= price`
(`main.py:467`). -/
def debitedPlayer (p : Player) (price : Int) : Player :=
  { p with tokens := p.tokens - price }

/-- The buyer's profile at the end of a successful `/buy`: debited by the
full price and holding the listing's item (`main.py:467,474`). -/
def boughtPlayer (p : Player) (l : Listing) : Player :=
  { p with tokens := p.tokens - l.price, items := p.items ++ [l.item] }

/-- A profile credited with the seller's share (`main.py:471`). -/
def creditedPlayer (sp : Player) (take : Int) : Player :=
  { sp with tokens := sp.tokens + take }

/-- The fee a given listing incurs (`main.py:461-463`). -/
def buyFee (l : Listing) : Int := fee_of l.price l.item.rarity

/-- `seller_take = price - fee` (`main.py:464`). -/
def sellerTake (l : Listing) : Int := l.price - buyFee l

/-- A market state for a positive-price trade: alice (id 1) has listed her
item for 100 tokens, bob (id 2) holds 150 tokens. -/
def sTrade : GameState :=
  { players :=
      [(1, { username := "alice", tokens := 0, chests := 0, items := [],
             equipped := initEquipped, referrer := none }),
       (2, { username := "bob", tokens := 150, chests := 0, items := [],
             equipped := initEquipped, referrer := none })],
    market := [mkListing 1 item1 100], tournament := [] }

/-- The insufficient-funds scenario: alice (0 tokens) has listed her only
item for 100 tokens; bob holds just 50 tokens. -/
def sScen : GameState :=
  { players :=
      [(1, { username := "alice", tokens := 0, chests := 0, items := [],
             equipped := initEquipped, referrer := none }),
       (2, { username := "bob", tokens := 50, chests := 0, items := [],
             equipped := initEquipped, referrer := none })],
    market := [mkListing 1 item1 100], tournament := [] }

/-- A market whose only listing names seller id 7, which has no profile
(e.g. a persisted listing whose seller record was lost); bob (id 2) holds
50 tokens. -/
def sOrphan : GameState :=
  { players :=
      [(2, { username := "bob", tokens := 50, chests := 0, items := [],
             equipped := initEquipped, referrer := none })],
    market := [mkListing 7 item1 10], tournament := [] }

/-- Bob's profile inside `sTrade`. -/
def pBobTrade : Player :=
  { username := "bob", tokens := 150, chests := 0, items := [],
    equipped := initEquipped, referrer := none }

/-- Alice's profile inside `sTrade` (and `sScen`). -/
def pAliceTrade : Player :=
  { username := "alice", tokens := 0, chests := 0, items := [],
    equipped := initEquipped, referrer := none }

/-- Alice wins a one-person table, opens her chest and lists the loot at
the negative price -25 (which `/sell` accepts, see C5). -/
def sNegList : GameState :=
  run init [.join 1 "alice", .winner true 99 "admin" (some "alice"),
            .openChest 1 "alice" roll1, .sell 1 "alice" 0 (-25)]

/-- Alice holding exactly the item `item1` and no tokens. -/
def pAliceItem : Player :=
  { username := "alice", tokens := 0, chests := 0, items := [item1],
    equipped := initEquipped, referrer := none }

/-- Seller alice (one item) and buyer bob (150 tokens), empty market. -/
def sC8 : GameState :=
  { players := [(1, pAliceItem), (2, pBobTrade)], market := [],
    tournament := [] }

/-- One equipment entry is sound w.r.t. an item collection: an occupied
slot references the id of some item in the collection. -/
def slotOkB (items : List Item) (kv : String × Option Nat) : Bool :=
  match kv.2 with
  | none => true
  | some i => items.any (fun it => it.id == i)

/-- Every occupied equipment slot references an item of the collection
(spec §3: the equipped-reference invariant, per player). -/
def equipOkL (eq : List (String × Option Nat)) (items : List Item) : Bool :=
  eq.all (slotOkB items)

/-- The equipped-reference invariant over a players map. -/
def pallEquip (ps : List (Nat × Player)) : Bool :=
  ps.all (fun kp => equipOkL kp.2.equipped kp.2.items)

/-- The equipped-reference invariant over the whole state. -/
def invEquip (s : GameState) : Bool := pallEquip s.players

/-- Alice equips her only item and then lists it for sale: `/sell` pops
the item but does not clear the equipment slot. -/
def sDangle : GameState :=
  run init [.join 1 "alice", .winner true 99 "admin" (some "alice"),
            .openChest 1 "alice" roll1, .equip 1 "alice" 0,
            .sell 1 "alice" 0 100]

/-- Item-id uniqueness within each collection, over a players map. -/
def pallIds (ps : List (Nat × Player)) : Bool :=
  ps.all (fun kp => decide (kp.2.items.map Item.id).Nodup)

/-- Item-id uniqueness within each player's collection (spec §3: Item id
unique within the owning player's lifetime). -/
def invIds (s : GameState) : Bool := pallIds s.players

/-- Alice and bob each open a chest (both items get id 1), then alice
lists hers for 5 tokens and bob buys it: bob ends up with two items that
share id 1. -/
def dupRun : List Action :=
  [.join 1 "alice", .join 2 "bob", .winner true 99 "admin" (some "alice"),
   .openChest 1 "alice" roll1, .openChest 2 "bob" roll1,
   .sell 1 "alice" 0 5, .buy 2 "bob" 0]

/-! ### Association-list lemmas -/

theorem pfind_pset_self : ∀ (ps : List (Nat × Player)) (k : Nat) (v : Player),
    pfind (pset ps k v) k = some v
  | [], k, v => by simp [pset, pfind]
  | (a, b) :: rest, k, v => by
    by_cases h : a = k
    · simp [pset, h, pfind]
    · simp [pset, h, pfind, pfind_pset_self rest k v]

theorem pfind_pset_ne : ∀ (ps : List (Nat × Player)) (k k' : Nat) (v : Player),
    k' ≠ k → pfind (pset ps k v) k' = pfind ps k'
  | [], k, k', v, h => by simp [pset, pfind, Ne.symm h]
  | (a, b) :: rest, k, k', v, h => by
    by_cases ha : a = k
    · subst ha; simp [pset, pfind, h, Ne.symm h]
    · simp only [pset, if_neg ha, pfind]
      by_cases ha' : a = k'
      · simp [ha']
      · simp [ha', pfind_pset_ne rest k k' v h]

theorem pset_pfind_self : ∀ (ps : List (Nat × Player)) (k : Nat) (p : Player),
    pfind ps k = some p → pset ps k p = ps
  | [], k, p, h => by simp [pfind] at h
  | (a, b) :: rest, k, p, h => by
    by_cases ha : a = k
    · subst ha
      simp [pfind] at h
      simp [pset, h]
    · simp only [pfind, if_neg ha] at h
      simp [pset, ha, pset_pfind_self rest k p h]

theorem pset_pset : ∀ (ps : List (Nat × Player)) (k : Nat) (a b : Player),
    pset (pset ps k a) k b = pset ps k b
  | [], k, a, b => by simp [pset]
  | (x, y) :: rest, k, a, b => by
    by_cases hx : x = k
    · simp [pset, hx]
    · simp [pset, hx, pset_pset rest k a b]

theorem isSome_pfind_pset (ps : List (Nat × Player)) (k k' : Nat) (v : Player)
    (h : (pfind ps k').isSome) : (pfind (pset ps k v) k').isSome := by
  by_cases hk : k' = k
  · subst hk; simp [pfind_pset_self]
  · rwa [pfind_pset_ne ps k k' v hk]

/-! ### `ensureP` lemmas -/

theorem ensureP_present (ps : List (Nat × Player)) (k : Nat) (p : Player)
    (h : pfind ps k = some p) :
    ensureP ps k p.username = ps := by
  unfold ensureP
  rw [h]
  exact pset_pfind_self ps k p h

theorem ensure_player_present (s : GameState) (k : Nat) (p : Player)
    (h : pfind s.players k = some p) :
    ensure_player s k p.username = s := by
  unfold ensure_player
  rw [ensureP_present s.players k p h]

theorem pfind_ensureP_ne (ps : List (Nat × Player)) (k k' : Nat) (u : String)
    (h : k' ≠ k) : pfind (ensureP ps k u) k' = pfind ps k' := by
  unfold ensureP
  cases hk : pfind ps k with
  | none => exact pfind_pset_ne ps k k' _ h
  | some p => exact pfind_pset_ne ps k k' _ h

theorem chestsP_ensureP (ps : List (Nat × Player)) (k : Nat) (u : String)
    (x : Nat) : chestsP (ensureP ps k u) x = chestsP ps x := by
  by_cases hx : x = k
  · subst hx
    unfold ensureP chestsP
    cases hk : pfind ps x with
    | none => simp [pfind_pset_self, hk, freshPlayer]
    | some p => simp [pfind_pset_self, hk]
  · unfold chestsP
    rw [pfind_ensureP_ne ps k x u hx]

theorem isSome_pfind_ensureP (ps : List (Nat × Player)) (k k' : Nat)
    (u : String) (h : (pfind ps k').isSome) :
    (pfind (ensureP ps k u) k').isSome := by
  unfold ensureP
  cases hk : pfind ps k with
  | none => exact isSome_pfind_pset ps k k' _ h
  | some p => exact isSome_pfind_pset ps k k' _ h

/-! ### Sum lemmas -/

theorem sumBy_pset_present (f : Player → Int) :
    ∀ (ps : List (Nat × Player)) (k : Nat) (p v : Player),
      pfind ps k = some p →
      sumBy f (pset ps k v) = sumBy f ps - f p + f v
  | [], k, p, v, h => by simp [pfind] at h
  | (a, b) :: rest, k, p, v, h => by
    by_cases ha : a = k
    · subst ha
      simp [pfind] at h
      subst h
      simp [pset, sumBy]
      ring
    · simp only [pfind, if_neg ha] at h
      simp only [pset, if_neg ha, sumBy, List.map_cons, List.sum_cons]
      have := sumBy_pset_present f rest k p v h
      simp only [sumBy] at this
      rw [this]
      ring

theorem sumBy_pset_absent (f : Player → Int) :
    ∀ (ps : List (Nat × Player)) (k : Nat) (v : Player),
      pfind ps k = none →
      sumBy f (pset ps k v) = sumBy f ps + f v
  | [], k, v, _ => by simp [pset, sumBy]
  | (a, b) :: rest, k, v, h => by
    by_cases ha : a = k
    · subst ha; simp [pfind] at h
    · simp only [pfind, if_neg ha] at h
      simp only [pset, if_neg ha, sumBy, List.map_cons, List.sum_cons]
      have := sumBy_pset_absent f rest k v h
      simp only [sumBy] at this
      rw [this]
      ring

theorem sumBy_ensureP (f : Player → Int) (ps : List (Nat × Player)) (k : Nat)
    (u : String) (hf : ∀ p s, f { p with username := s } = f p)
    (hf0 : f (freshPlayer u) = 0) :
    sumBy f (ensureP ps k u) = sumBy f ps := by
  unfold ensureP
  cases hk : pfind ps k with
  | none => rw [sumBy_pset_absent f ps k _ hk, hf0]; ring
  | some p =>
    rw [sumBy_pset_present f ps k p _ hk, hf p u]
    ring

/-! ### `addChest` lemmas -/

theorem chestsP_addChest_present (ps : List (Nat × Player)) (k : Nat)
    (h : (pfind ps k).isSome) :
    chestsP (addChest ps k) k = chestsP ps k + 1 := by
  obtain ⟨p, hp⟩ := Option.isSome_iff_exists.mp h
  unfold addChest chestsP
  rw [hp]
  simp [pfind_pset_self, hp]

theorem chestsP_addChest_ne (ps : List (Nat × Player)) (k x : Nat)
    (h : x ≠ k) : chestsP (addChest ps k) x = chestsP ps x := by
  unfold addChest chestsP
  cases hp : pfind ps k with
  | none => rfl
  | some p => rw [pfind_pset_ne ps k x _ h]

theorem isSome_pfind_addChest (ps : List (Nat × Player)) (k x : Nat)
    (h : (pfind ps x).isSome) : (pfind (addChest ps k) x).isSome := by
  unfold addChest
  cases hp : pfind ps k with
  | none => exact h
  | some p => exact isSome_pfind_pset ps k x _ h

theorem sumBy_chests_addChest_present (ps : List (Nat × Player)) (k : Nat)
    (h : (pfind ps k).isSome) :
    sumBy Player.chests (addChest ps k) = sumBy Player.chests ps + 1 := by
  obtain ⟨p, hp⟩ := Option.isSome_iff_exists.mp h
  unfold addChest
  rw [hp, sumBy_pset_present Player.chests ps k p _ hp]
  simp
  ring

/-! ### Chest-loop lemmas -/

theorem isSome_pfind_chestLoop (caller : Nat) (cn : String) :
    ∀ (queue : List Nat) (ps : List (Nat × Player)) (x : Nat),
      (pfind ps x).isSome → (pfind (chestLoop caller cn ps queue) x).isSome
  | [], ps, x, h => h
  | q :: rest, ps, x, h =>
    isSome_pfind_chestLoop caller cn rest _ x
      (isSome_pfind_addChest _ q x (isSome_pfind_ensureP ps caller x cn h))

theorem chestsP_chestLoop (caller : Nat) (cn : String) :
    ∀ (queue : List Nat) (ps : List (Nat × Player)),
      (∀ q ∈ queue, (pfind ps q).isSome) → ∀ x : Nat,
      chestsP (chestLoop caller cn ps queue) x =
        chestsP ps x + (queue.count x : Int)
  | [], ps, _, x => by simp [chestLoop]
  | q :: rest, ps, hq, x => by
    have hqmem : (pfind ps q).isSome := hq q (List.mem_cons_self q rest)
    have hq' : (pfind (ensureP ps caller cn) q).isSome :=
      isSome_pfind_ensureP ps caller q cn hqmem
    have hrest : ∀ r ∈ rest, (pfind (addChest (ensureP ps caller cn) q) r).isSome := by
      intro r hr
      exact isSome_pfind_addChest _ q r
        (isSome_pfind_ensureP ps caller r cn (hq r (List.mem_cons_of_mem q hr)))
    show chestsP (chestLoop caller cn (addChest (ensureP ps caller cn) q) rest) x = _
    rw [chestsP_chestLoop caller cn rest _ hrest x]
    by_cases hx : x = q
    · subst hx
      rw [chestsP_addChest_present _ x hq', chestsP_ensureP ps caller cn x]
      simp [List.count_cons]
      ring
    · rw [chestsP_addChest_ne _ q x hx, chestsP_ensureP ps caller cn x]
      have : (q == x) = false := by simp [hx, Ne.symm hx]
      simp [List.count_cons, this]

theorem sumBy_chests_chestLoop (caller : Nat) (cn : String) :
    ∀ (queue : List Nat) (ps : List (Nat × Player)),
      (∀ q ∈ queue, (pfind ps q).isSome) →
      sumBy Player.chests (chestLoop caller cn ps queue) =
        sumBy Player.chests ps + (queue.length : Int)
  | [], ps, _ => by simp [chestLoop]
  | q :: rest, ps, hq => by
    have hqmem : (pfind ps q).isSome := hq q (List.mem_cons_self q rest)
    have hq' : (pfind (ensureP ps caller cn) q).isSome :=
      isSome_pfind_ensureP ps caller q cn hqmem
    have hrest : ∀ r ∈ rest, (pfind (addChest (ensureP ps caller cn) q) r).isSome := by
      intro r hr
      exact isSome_pfind_addChest _ q r
        (isSome_pfind_ensureP ps caller r cn (hq r (List.mem_cons_of_mem q hr)))
    show sumBy Player.chests (chestLoop caller cn (addChest (ensureP ps caller cn) q) rest) = _
    rw [sumBy_chests_chestLoop caller cn rest _ hrest,
        sumBy_chests_addChest_present _ q hq',
        sumBy_ensureP Player.chests ps caller cn (fun _ _ => rfl) rfl]
    simp
    ring

/-! ### `findWinner` lemmas -/

theorem findWinner_mem (ps : List (Nat × Player)) :
    ∀ (queue : List Nat) (t : String) (wid : Nat),
      findWinner ps queue t = some wid → wid ∈ queue
  | [], t, wid, h => by simp [findWinner] at h
  | q :: rest, t, wid, h => by
    unfold findWinner at h
    cases hp : pfind ps q with
    | none =>
      rw [hp] at h
      exact List.mem_cons_of_mem q (findWinner_mem ps rest t wid h)
    | some p =>
      rw [hp] at h
      have h2 : (if p.username = t then some q else findWinner ps rest t) = some wid := h
      by_cases hu : p.username = t
      · rw [if_pos hu] at h2
        cases h2
        exact List.mem_cons_self q rest
      · rw [if_neg hu] at h2
        exact List.mem_cons_of_mem q (findWinner_mem ps rest t wid h2)

theorem winnerOp_found (s : GameState) (caller : Nat) (cn t : String)
    (wid : Nat) (hWin : findWinner s.players s.tournament t = some wid) :
    winnerOp s true caller cn (some t) =
      ({ s with players := addChest (chestLoop caller cn s.players s.tournament) wid,
                tournament := [] }, .ok wid) := by
  have hne : s.tournament ≠ [] := by
    intro he
    rw [he] at hWin
    simp [findWinner] at hWin
  unfold winnerOp
  rw [if_neg (by simp), if_neg hne]
  show (match findWinner s.players s.tournament t with
        | none => (s, WinnerResult.notInTable)
        | some wid =>
          ({ s with players := addChest (chestLoop caller cn s.players s.tournament) wid,
                    tournament := [] }, .ok wid)) = _
  rw [hWin]

/-- C7: tournament resolve with the queued players all registered and a
winner found in the queue gives every queued player one chest, the winner
one more (net +2), distributes `N + 1` chests in total, leaves every
non-queued profile's chest count unchanged, and empties the queue. -/
theorem C7_resolve_distributes_chests (s : GameState) (caller : Nat)
    (cn t : String) (wid : Nat)
    (hND : s.tournament.Nodup)
    (hPres : ∀ q ∈ s.tournament, (pfind s.players q).isSome)
    (hWin : findWinner s.players s.tournament t = some wid) :
    (winnerOp s true caller cn (some t)).2 = .ok wid ∧
    (winnerOp s true caller cn (some t)).1.tournament = [] ∧
    chestsP (winnerOp s true caller cn (some t)).1.players wid =
      chestsP s.players wid + 2 ∧
    (∀ q ∈ s.tournament, q ≠ wid →
      chestsP (winnerOp s true caller cn (some t)).1.players q =
        chestsP s.players q + 1) ∧
    (∀ x : Nat, x ∉ s.tournament →
      chestsP (winnerOp s true caller cn (some t)).1.players x =
        chestsP s.players x) ∧
    sumBy Player.chests (winnerOp s true caller cn (some t)).1.players =
      sumBy Player.chests s.players + (s.tournament.length : Int) + 1 := by
  rw [winnerOp_found s caller cn t wid hWin]
  have hwmem : wid ∈ s.tournament := findWinner_mem s.players s.tournament t wid hWin
  have hwid : (pfind (chestLoop caller cn s.players s.tournament) wid).isSome :=
    isSome_pfind_chestLoop caller cn s.tournament s.players wid (hPres wid hwmem)
  refine ⟨rfl, rfl, ?_, ?_, ?_, ?_⟩
  · rw [chestsP_addChest_present _ wid hwid,
        chestsP_chestLoop caller cn s.tournament s.players hPres wid,
        List.count_eq_one_of_mem hND hwmem]
    push_cast
    ring
  · intro q hq hqw
    rw [chestsP_addChest_ne _ wid q hqw,
        chestsP_chestLoop caller cn s.tournament s.players hPres q,
        List.count_eq_one_of_mem hND hq]
    push_cast
    ring
  · intro x hx
    have hxw : x ≠ wid := fun he => hx (he ▸ hwmem)
    rw [chestsP_addChest_ne _ wid x hxw,
        chestsP_chestLoop caller cn s.tournament s.players hPres x,
        List.count_eq_zero_of_not_mem hx]
    push_cast
    ring
  · rw [sumBy_chests_addChest_present _ wid hwid,
        sumBy_chests_chestLoop caller cn s.tournament s.players hPres]

theorem C7_resolve_distributes_chests_witness :
    (winnerOp sTable true 99 "admin" (some "alice")).2 = .ok 1 ∧
    (winnerOp sTable true 99 "admin" (some "alice")).1.tournament = [] ∧
    chestsP (winnerOp sTable true 99 "admin" (some "alice")).1.players 1 =
      chestsP sTable.players 1 + 2 ∧
    chestsP (winnerOp sTable true 99 "admin" (some "alice")).1.players 2 =
      chestsP sTable.players 2 + 1 := by
  have h := C7_resolve_distributes_chests sTable 99 "admin" "alice" 1
    (by decide) (by decide) (by decide)
  exact ⟨h.1, h.2.1, h.2.2.1, h.2.2.2.1 2 (by decide) (by decide)⟩

/-- C2 counterexample: after five distinct identities have joined, a sixth
distinct `join` is accepted and appended — the queue reaches size 6, so it
is not capped at capacity 5. -/
theorem C2_capacity_cex :
    (run init sixJoins).tournament = [1, 2, 3, 4, 5, 6] ∧
    (run init sixJoins).tournament.length = 6 := by
  constructor <;> rfl

/-- C2 (amended): `join` rejects only a duplicate identity (leaving the
queue unchanged); a join by any identity not yet queued always appends,
regardless of the current size, incrementing the size by one — so the
size-5 capacity is only an announcement threshold, not an enforced bound. -/
theorem C2_join_policy (s : GameState) (uid : Nat) (u : String) :
    (uid ∈ s.tournament →
      joinOp s uid u = (ensure_player s uid u, .alreadyIn)) ∧
    (uid ∉ s.tournament →
      (joinOp s uid u).1.tournament = s.tournament ++ [uid] ∧
      (joinOp s uid u).2 = .joined (s.tournament.length + 1)) := by
  constructor
  · intro hmem
    unfold joinOp
    rw [if_pos]
    exact hmem
  · intro hnot
    unfold joinOp
    rw [if_neg]
    · constructor
      · rfl
      · show JoinResult.joined (s.tournament ++ [uid]).length = _
        rw [List.length_append, List.length_singleton]
    · exact hnot

/-- Witness for C2 (amended): in a state whose queue already holds five
distinct identities, a sixth distinct join appends and a rejoin of a
queued identity is refused. -/
theorem C2_join_policy_witness :
    (joinOp queue5 6 "u6").1.tournament = [1, 2, 3, 4, 5, 6] ∧
    (joinOp queue5 3 "u3").2 = .alreadyIn := by
  refine ⟨((C2_join_policy queue5 6 "u6").2 (by decide)).1, ?_⟩
  rw [(C2_join_policy queue5 3 "u3").1 (by decide)]

/-! ### Fresh item ids -/

theorem foldl_max_le_init : ∀ (l : List Nat) (a : Nat), a ≤ l.foldl Nat.max a
  | [], a => le_refl a
  | x :: l, a => le_trans (Nat.le_max_left a x) (foldl_max_le_init l (Nat.max a x))

theorem mem_le_foldl_max : ∀ (l : List Nat) (a x : Nat), x ∈ l → x ≤ l.foldl Nat.max a
  | [], _, x, h => absurd h (List.not_mem_nil x)
  | y :: l, a, x, h => by
    rcases List.mem_cons.mp h with rfl | h2
    · exact le_trans (Nat.le_max_right a x) (foldl_max_le_init l (Nat.max a x))
    · exact mem_le_foldl_max l (Nat.max a y) x h2

theorem new_item_id_gt (p : Player) : ∀ it ∈ p.items, it.id < new_item_id p := by
  intro it hit
  unfold new_item_id
  have hne : (p.items.map Item.id).isEmpty = false := by
    cases hi : p.items with
    | nil => rw [hi] at hit; exact absurd hit (List.not_mem_nil it)
    | cons a l => rfl
  simp only [hne, Bool.false_eq_true, if_false]
  exact Nat.lt_succ_of_le
    (mem_le_foldl_max (p.items.map Item.id) 0 it.id
      (List.mem_map_of_mem Item.id hit))

/-! ### `ensure_player` with an explicit username -/

theorem ensureP_present' (ps : List (Nat × Player)) (k : Nat) (p : Player)
    (u : String) (h : pfind ps k = some p) (hu : p.username = u) :
    ensureP ps k u = ps := by
  subst hu
  exact ensureP_present ps k p h

theorem ensure_player_present' (s : GameState) (k : Nat) (p : Player)
    (u : String) (h : pfind s.players k = some p) (hu : p.username = u) :
    ensure_player s k u = s := by
  subst hu
  exact ensure_player_present s k p h

/-! ### `open_chest` characterization -/

theorem open_chest_eq (s : GameState) (uid : Nat) (u : String) (r : Roll)
    (p : Player) (hp : pfind s.players uid = some p) (hu : p.username = u) :
    open_chest s uid u r =
      if p.chests ≤ 0 then (s, .noChests)
      else
        ({ s with players := pset s.players uid (openedPlayer p r) },
         .opened (rolledItem p r) r.tokens) := by
  simp only [open_chest, ensure_player_present' s uid p u hp hu, hp,
             openedPlayer, rolledItem]

/-- C6: `open_chest` on a registered profile with a non-negative chest
count fails (with the no-chests reply, leaving the state exactly
unchanged) precisely when the chest count is zero; a successful call
decrements the chest count by one, appends exactly one new item whose id
is `new_item_id` — strictly greater than every existing item id, i.e. one
greater than the current maximum (1 on an empty collection) — and adds the
rolled token bonus to the balance. -/
theorem C6_open_chest_spec (s : GameState) (uid : Nat) (u : String)
    (r : Roll) (p : Player)
    (hp : pfind s.players uid = some p) (hu : p.username = u)
    (hnn : 0 ≤ p.chests) :
    ((open_chest s uid u r).2 = .noChests ↔ p.chests = 0) ∧
    (p.chests = 0 → open_chest s uid u r = (s, .noChests)) ∧
    (0 < p.chests →
      open_chest s uid u r =
        ({ s with players := pset s.players uid (openedPlayer p r) },
         .opened (rolledItem p r) r.tokens)) ∧
    (∀ it ∈ p.items, it.id < new_item_id p) := by
  have he := open_chest_eq s uid u r p hp hu
  by_cases hc : p.chests = 0
  · rw [he, if_pos (le_of_eq hc)]
    refine ⟨⟨fun _ => hc, fun _ => rfl⟩, fun _ => rfl, fun h0 => ?_, new_item_id_gt p⟩
    exact absurd hc (ne_of_gt h0)
  · have h0 : 0 < p.chests := lt_of_le_of_ne hnn (Ne.symm hc)
    rw [he, if_neg (not_le.mpr h0)]
    refine ⟨⟨fun hr => ?_, fun h => absurd h hc⟩, fun h => absurd h hc,
            fun _ => rfl, new_item_id_gt p⟩
    exact absurd hr (by simp)

/-- Witness for C6: alice holds one chest, so opening succeeds, yields the
item with the next id 2 and adds the 10-token bonus. -/
theorem C6_open_chest_spec_witness :
    (open_chest sAlice 1 "alice" roll1).2 ≠ .noChests ∧
    (open_chest sAlice 1 "alice" roll1).2 =
      .opened { id := 2, name := "Lucky Token", slot := "trinket",
                rarity := "Common", power := 1 } 10 := by
  have h := C6_open_chest_spec sAlice 1 "alice" roll1 pAlice
    (by decide) (by decide) (by decide)
  constructor
  · intro hc
    exact (by decide : ¬ pAlice.chests = 0) (h.1.mp hc)
  · rw [h.2.2.1 (by decide)]
    rfl

/-! ### `sell` characterization -/

theorem sell_success_eq (s : GameState) (uid : Nat) (u : String)
    (idx price : Int) (p : Player) (it : Item)
    (hp : pfind s.players uid = some p) (hu : p.username = u)
    (h0 : 0 ≤ idx) (hlt : idx < (p.items.length : Int))
    (hget : p.items.get? idx.toNat = some it) :
    sellOp s uid u idx price =
      ({ s with players := pset s.players uid (listedPlayer p idx.toNat),
                market := s.market ++ [mkListing uid it price] },
       .listed) := by
  have hcond : ¬ (idx < 0 ∨ (p.items.length : Int) ≤ idx) := by omega
  simp only [sellOp, ensure_player_present' s uid p u hp hu, hp, if_neg hcond,
             hget, listedPlayer, mkListing]

/-- C5 counterexample: a `/sell` with price 0 — not a positive integer —
succeeds anyway: the reply is "listed", the zero-priced listing is
appended, and the item leaves the seller's collection. -/
theorem C5_invalid_price_cex :
    (sellOp sAlice 1 "alice" 0 0).2 = .listed ∧
    (sellOp sAlice 1 "alice" 0 0).1.market.map Listing.price = [0] ∧
    (pfind (sellOp sAlice 1 "alice" 0 0).1.players 1).map Player.items =
      some [] := by
  refine ⟨rfl, rfl, rfl⟩

/-- C5 (amended): `sell` validates only the item index; any integer price
— positive, zero or negative — is accepted: the item is popped from the
seller's collection and a listing at that price is appended.  There is no
`InvalidPrice` failure. -/
theorem C5_sell_accepts_any_integer_price (s : GameState) (uid : Nat)
    (u : String) (idx price : Int) (p : Player) (it : Item)
    (hp : pfind s.players uid = some p) (hu : p.username = u)
    (h0 : 0 ≤ idx) (hlt : idx < (p.items.length : Int))
    (hget : p.items.get? idx.toNat = some it) :
    sellOp s uid u idx price =
      ({ s with players := pset s.players uid (listedPlayer p idx.toNat),
                market := s.market ++ [mkListing uid it price] },
       .listed) :=
  sell_success_eq s uid u idx price p it hp hu h0 hlt hget

/-- Witness for C5 (amended): alice lists her item at the negative price
-7 and the listing goes through. -/
theorem C5_sell_accepts_any_integer_price_witness :
    sellOp sAlice 1 "alice" 0 (-7) =
      ({ sAlice with players := pset sAlice.players 1 (listedPlayer pAlice 0),
                     market := sAlice.market ++ [mkListing 1 item1 (-7)] },
       .listed) :=
  C5_sell_accepts_any_integer_price sAlice 1 "alice" 0 (-7) pAlice item1
    (by decide) (by decide) (by decide) (by decide) (by decide)

/-! ### More association-list lemmas -/

theorem pset_comm_present : ∀ (ps : List (Nat × Player)) (a b : Nat)
    (va vb : Player), a ≠ b → (pfind ps a).isSome →
    pset (pset ps a va) b vb = pset (pset ps b vb) a va
  | [], a, b, va, vb, _, ha => by simp [pfind] at ha
  | (k, v) :: rest, a, b, va, vb, hab, ha => by
    by_cases hka : k = a
    · subst hka
      simp [pset, hab, Ne.symm hab]
    · by_cases hkb : k = b
      · subst hkb
        simp [pset, hab, Ne.symm hab, hka]
      · simp only [pfind, if_neg hka] at ha
        simp only [pset, if_neg hka, if_neg hkb]
        rw [pset_comm_present rest a b va vb hab ha]

theorem length_eraseIdx_int {α : Type} (l : List α) (n : Nat)
    (h : n < l.length) :
    ((l.eraseIdx n).length : Int) = (l.length : Int) - 1 := by
  rw [List.length_eraseIdx, if_pos h]
  omega

/-! ### Fee arithmetic -/

theorem feePercent_nonneg (r : String) : 0 ≤ feePercent r := by
  unfold feePercent
  split_ifs <;> norm_num

theorem fee_of_floor_of_nonneg (price : Int) (r : String) (h : 0 ≤ price) :
    fee_of price r = Int.fdiv (price * feePercent r) 100 := by
  have hm : 0 ≤ price * feePercent r := mul_nonneg h (feePercent_nonneg r)
  unfold fee_of
  rw [Int.tdiv_eq_ediv hm (by norm_num), Int.fdiv_eq_ediv _ (by norm_num)]

/-! ### `buy` characterizations -/

/-- C9: a `buy` whose buyer's token balance is below the listing price
fails with the insufficient-funds reply and leaves the whole state exactly
unchanged — the buyer's tokens, the listing, and every other part of the
state are as before. -/
theorem C9_buy_insufficient_funds (s : GameState) (uid : Nat) (u : String)
    (idx : Int) (p : Player) (listing : Listing)
    (hp : pfind s.players uid = some p) (hu : p.username = u)
    (h0 : 0 ≤ idx) (hlt : idx < (s.market.length : Int))
    (hget : s.market.get? idx.toNat = some listing)
    (hins : p.tokens < listing.price) :
    buyOp s uid u idx = (s, .insufficient) := by
  have hcond : ¬ (idx < 0 ∨ (s.market.length : Int) ≤ idx) := by omega
  simp only [buyOp, ensure_player_present' s uid p u hp hu, hp, if_neg hcond,
             hget, if_pos hins]

/-- Witness for C9, the spec's own scenario: bob holds 50 tokens and
attempts to buy the 100-token listing; the call fails, his balance is
still 50 and the listing is still present. -/
theorem C9_buy_insufficient_funds_witness :
    buyOp sScen 2 "bob" 0 = (sScen, .insufficient) ∧
    (pfind (buyOp sScen 2 "bob" 0).1.players 2).map Player.tokens = some 50 ∧
    (buyOp sScen 2 "bob" 0).1.market = [mkListing 1 item1 100] := by
  have h := C9_buy_insufficient_funds sScen 2 "bob" 0
    { username := "bob", tokens := 50, chests := 0, items := [],
      equipped := initEquipped, referrer := none }
    (mkListing 1 item1 100)
    (by decide) (by decide) (by decide) (by decide) (by decide) (by decide)
  refine ⟨h, ?_, ?_⟩ <;> rw [h] <;> rfl

/-- C10: a successful `buy` of a listing whose seller id has no profile
still completes — the buyer is debited the full price and receives the
item, the listing is removed — but nobody is credited the seller's share,
so the total token supply drops by the full price, not just the fee. -/
theorem C10_buy_orphan_seller (s : GameState) (uid : Nat) (u : String)
    (idx : Int) (p : Player) (listing : Listing)
    (hp : pfind s.players uid = some p) (hu : p.username = u)
    (h0 : 0 ≤ idx) (hlt : idx < (s.market.length : Int))
    (hget : s.market.get? idx.toNat = some listing)
    (hfund : listing.price ≤ p.tokens)
    (hso : pfind s.players listing.seller_id = none) :
    buyOp s uid u idx =
      ({ s with players := pset s.players uid (boughtPlayer p listing),
                market := s.market.eraseIdx idx.toNat },
       .bought listing.item listing.price (buyFee listing)
         (sellerTake listing)) ∧
    totalTokens (buyOp s uid u idx).1 = totalTokens s - listing.price := by
  have hcond : ¬ (idx < 0 ∨ (s.market.length : Int) ≤ idx) := by omega
  have hne : listing.seller_id ≠ uid := by
    intro he
    rw [he, hp] at hso
    cases hso
  have h1 : pfind (pset s.players uid (debitedPlayer p listing.price)) uid =
      some (debitedPlayer p listing.price) := pfind_pset_self s.players uid _
  have h2 : ensureP (pset s.players uid (debitedPlayer p listing.price)) uid u =
      pset s.players uid (debitedPlayer p listing.price) :=
    ensureP_present' _ uid _ u h1 hu
  have h3 : pfind (pset s.players uid (debitedPlayer p listing.price))
      listing.seller_id = none := by
    rw [pfind_pset_ne s.players uid listing.seller_id _ hne]
    exact hso
  have hmain : buyOp s uid u idx =
      ({ s with players := pset s.players uid (boughtPlayer p listing),
                market := s.market.eraseIdx idx.toNat },
       .bought listing.item listing.price (buyFee listing)
         (sellerTake listing)) := by
    simp only [buyOp, creditSeller, giveItem,
               ensure_player_present' s uid p u hp hu, hp,
               if_neg hcond, hget, if_neg (not_lt.mpr hfund), debitedPlayer]
      at h1 h2 h3 ⊢
    simp only [h2, h3, h1]
    rw [pset_pset]
    rfl
  refine ⟨hmain, ?_⟩
  rw [hmain]
  show sumBy Player.tokens (pset s.players uid (boughtPlayer p listing)) = _
  rw [sumBy_pset_present Player.tokens s.players uid p _ hp]
  show sumBy Player.tokens s.players - p.tokens + (p.tokens - listing.price) = _
  unfold totalTokens
  ring

/-- Witness for C10: bob buys the 10-token listing whose seller id 7 has
no profile; the purchase completes and the total supply falls by 10. -/
theorem C10_buy_orphan_seller_witness :
    (buyOp sOrphan 2 "bob" 0).2 =
      .bought item1 10 (buyFee (mkListing 7 item1 10))
        (sellerTake (mkListing 7 item1 10)) ∧
    totalTokens (buyOp sOrphan 2 "bob" 0).1 = totalTokens sOrphan - 10 := by
  have h := C10_buy_orphan_seller sOrphan 2 "bob" 0
    { username := "bob", tokens := 50, chests := 0, items := [],
      equipped := initEquipped, referrer := none }
    (mkListing 7 item1 10)
    (by decide) (by decide) (by decide) (by decide) (by decide) (by decide)
    (by decide)
  refine ⟨?_, h.2⟩
  rw [h.1]
  rfl

/-- A successful `buy` whose seller has a profile distinct from the buyer:
the buyer is debited the full price and receives the item, the seller is
credited `price - fee`, and the listing is removed. -/
theorem buy_present_eq (s : GameState) (uid : Nat) (u : String)
    (idx : Int) (p : Player) (listing : Listing) (sp : Player)
    (hp : pfind s.players uid = some p) (hu : p.username = u)
    (h0 : 0 ≤ idx) (hlt : idx < (s.market.length : Int))
    (hget : s.market.get? idx.toNat = some listing)
    (hfund : listing.price ≤ p.tokens)
    (hsp : pfind s.players listing.seller_id = some sp)
    (hne : listing.seller_id ≠ uid) :
    buyOp s uid u idx =
      ({ s with players := pset (pset s.players uid (boughtPlayer p listing)) listing.seller_id (creditedPlayer sp (sellerTake listing)),
                market := s.market.eraseIdx idx.toNat },
       .bought listing.item listing.price (buyFee listing)
         (sellerTake listing)) := by
  have hcond : ¬ (idx < 0 ∨ (s.market.length : Int) ≤ idx) := by omega
  have h1 : pfind (pset s.players uid (debitedPlayer p listing.price)) uid =
      some (debitedPlayer p listing.price) := pfind_pset_self s.players uid _
  have h2 : ensureP (pset s.players uid (debitedPlayer p listing.price)) uid u =
      pset s.players uid (debitedPlayer p listing.price) :=
    ensureP_present' _ uid _ u h1 hu
  have h3 : pfind (pset s.players uid (debitedPlayer p listing.price))
      listing.seller_id = some sp := by
    rw [pfind_pset_ne s.players uid listing.seller_id _ hne]
    exact hsp
  have h4 : pfind (pset (pset s.players uid (debitedPlayer p listing.price)) listing.seller_id (creditedPlayer sp (sellerTake listing))) uid =
      some (debitedPlayer p listing.price) := by
    rw [pfind_pset_ne _ listing.seller_id uid _ (Ne.symm hne)]
    exact h1
  have hcomm : pset (pset (pset s.players uid (debitedPlayer p listing.price)) listing.seller_id (creditedPlayer sp (sellerTake listing))) uid (boughtPlayer p listing) =
      pset (pset s.players uid (boughtPlayer p listing)) listing.seller_id (creditedPlayer sp (sellerTake listing)) := by
    rw [pset_comm_present s.players uid listing.seller_id _ _ (Ne.symm hne)
          (by rw [hp]; rfl),
        pset_pset,
        pset_comm_present s.players listing.seller_id uid _ _ hne
          (by rw [hsp]; rfl)]
  simp only [buyOp, creditSeller, giveItem,
             ensure_player_present' s uid p u hp hu, hp,
             if_neg hcond, hget, if_neg (not_lt.mpr hfund), debitedPlayer,
             creditedPlayer, sellerTake, buyFee, boughtPlayer]
    at h1 h2 h3 h4 hcomm ⊢
  simp only [h2, h3, h1, h4]
  rw [hcomm]

/-- C1 counterexample: `/sell` accepts the negative price -25 (see C5),
and on purchase the code computes `fee = int(-25 * 0.02) = 0` — a
truncation toward zero — while `floor(-25 * 0.02) = -1`: the charged fee
(0) differs from the claimed `floor(price * fee_rate(rarity))` (-1). -/
theorem C1_fee_floor_cex :
    (buyOp sNegList 2 "bob" 0).2 = .bought item1 (-25) 0 (-25) ∧
    Int.fdiv ((-25) * feePercent "Common") 100 = -1 ∧
    (0 : Int) ≠ (-1 : Int) := by
  refine ⟨rfl, rfl, by decide⟩

/-- C1 (amended): for every successful `buy` with a registered seller
distinct from the buyer, the fee is the truncation toward zero of
`price * feePercent(rarity) / 100` (2% Common, 4% Uncommon, 6% Rare, 2%
otherwise), which coincides with the floor exactly when the price is
non-negative; the seller's credit plus the fee equals the price, the
buyer is debited the full price and receives the item, and the seller is
credited `price - fee`. -/
theorem C1_fee_settlement (s : GameState) (uid : Nat) (u : String)
    (idx : Int) (p : Player) (listing : Listing) (sp : Player)
    (hp : pfind s.players uid = some p) (hu : p.username = u)
    (h0 : 0 ≤ idx) (hlt : idx < (s.market.length : Int))
    (hget : s.market.get? idx.toNat = some listing)
    (hfund : listing.price ≤ p.tokens)
    (hsp : pfind s.players listing.seller_id = some sp)
    (hne : listing.seller_id ≠ uid) :
    (buyOp s uid u idx).2 =
      .bought listing.item listing.price (buyFee listing)
        (sellerTake listing) ∧
    sellerTake listing + buyFee listing = listing.price ∧
    buyFee listing =
      Int.tdiv (listing.price * feePercent listing.item.rarity) 100 ∧
    (0 ≤ listing.price →
      buyFee listing =
        Int.fdiv (listing.price * feePercent listing.item.rarity) 100) ∧
    pfind (buyOp s uid u idx).1.players uid = some (boughtPlayer p listing) ∧
    pfind (buyOp s uid u idx).1.players listing.seller_id =
      some (creditedPlayer sp (sellerTake listing)) := by
  have he := buy_present_eq s uid u idx p listing sp hp hu h0 hlt hget
    hfund hsp hne
  refine ⟨by rw [he], by unfold sellerTake; ring, rfl,
          fun h => fee_of_floor_of_nonneg listing.price listing.item.rarity h,
          ?_, ?_⟩
  · rw [he]
    show pfind (pset (pset s.players uid (boughtPlayer p listing)) listing.seller_id (creditedPlayer sp (sellerTake listing))) uid = _
    rw [pfind_pset_ne _ listing.seller_id uid _ (Ne.symm hne)]
    exact pfind_pset_self s.players uid _
  · rw [he]
    exact pfind_pset_self _ listing.seller_id _

/-- Witness for C1 (amended): bob (150 tokens) buys alice's 100-token
Common listing: fee 2, alice receives 98, bob ends at 50 tokens holding
the item. -/
theorem C1_fee_settlement_witness :
    (buyOp sTrade 2 "bob" 0).2 = .bought item1 100 2 98 ∧
    (pfind (buyOp sTrade 2 "bob" 0).1.players 2).map Player.tokens =
      some 50 ∧
    (pfind (buyOp sTrade 2 "bob" 0).1.players 1).map Player.tokens =
      some 98 := by
  have h := C1_fee_settlement sTrade 2 "bob" 0 pBobTrade
    (mkListing 1 item1 100) pAliceTrade
    (by decide) (by decide) (by decide) (by decide) (by decide) (by decide)
    (by decide) (by decide)
  refine ⟨?_, ?_, ?_⟩
  · rw [h.1]
    rfl
  · rw [h.2.2.2.2.1]
    rfl
  · have h6 : pfind (buyOp sTrade 2 "bob" 0).1.players 1 =
        some (creditedPlayer pAliceTrade (sellerTake (mkListing 1 item1 100))) :=
      h.2.2.2.2.2
    rw [h6]
    rfl

/-- C8 counterexample: the total item count over all players plus active
listings is not invariant under every operation — a successful
`open_chest` creates an item and raises the total from 1 to 2. -/
theorem C8_conservation_cex :
    totalItems (step sAlice (.openChest 1 "alice" roll1)) =
      totalItems sAlice + 1 ∧
    totalItems sAlice = 1 := by
  constructor <;> rfl

/-- C8 (amended): across a `list_item` followed by a `buy` of that listing
(registered seller and buyer, distinct, buyer sufficiently funded), the
exact item — same id, name, slot, rarity and power — moves from the
seller's collection into the listing and then into the buyer's collection
with no duplication: the total item count over all players plus active
listings is unchanged by the `list_item` and by the `buy`.  (It is not
invariant under `open_chest`, which creates its item.) -/
theorem C8_item_conservation (s : GameState) (uid buyer : Nat) (u bu : String)
    (idx price : Int) (p bp : Player) (it : Item)
    (hp : pfind s.players uid = some p) (hu : p.username = u)
    (h0 : 0 ≤ idx) (hlt : idx < (p.items.length : Int))
    (hget : p.items.get? idx.toNat = some it)
    (hbp : pfind s.players buyer = some bp) (hbu : bp.username = bu)
    (hne : buyer ≠ uid)
    (hfund : price ≤ bp.tokens) :
    (sellOp s uid u idx price).2 = .listed ∧
    (sellOp s uid u idx price).1.market =
      s.market ++ [mkListing uid it price] ∧
    totalItems (sellOp s uid u idx price).1 = totalItems s ∧
    (buyOp (sellOp s uid u idx price).1 buyer bu (s.market.length : Int)).2 =
      .bought it price (buyFee (mkListing uid it price))
        (sellerTake (mkListing uid it price)) ∧
    pfind (buyOp (sellOp s uid u idx price).1 buyer bu
        (s.market.length : Int)).1.players buyer =
      some (boughtPlayer bp (mkListing uid it price)) ∧
    totalItems (buyOp (sellOp s uid u idx price).1 buyer bu
        (s.market.length : Int)).1 = totalItems s := by
  have hsell := sell_success_eq s uid u idx price p it hp hu h0 hlt hget
  have hidx : idx.toNat < p.items.length := by omega
  have hmkt : (sellOp s uid u idx price).1.market =
      s.market ++ [mkListing uid it price] := by rw [hsell]
  have hplayers : (sellOp s uid u idx price).1.players =
      pset s.players uid (listedPlayer p idx.toNat) := by rw [hsell]
  have h3 : totalItems (sellOp s uid u idx price).1 = totalItems s := by
    rw [hsell]
    unfold totalItems
    rw [sumBy_pset_present _ s.players uid p _ hp]
    simp only [listedPlayer, List.length_append, List.length_singleton]
    rw [length_eraseIdx_int p.items idx.toNat hidx]
    push_cast
    ring
  have hbp' : pfind (sellOp s uid u idx price).1.players buyer = some bp := by
    rw [hplayers, pfind_pset_ne s.players uid buyer _ hne]
    exact hbp
  have hsp' : pfind (sellOp s uid u idx price).1.players uid =
      some (listedPlayer p idx.toNat) := by
    rw [hplayers]
    exact pfind_pset_self s.players uid _
  have hget' : (sellOp s uid u idx price).1.market.get?
      ((s.market.length : Int)).toNat = some (mkListing uid it price) := by
    rw [hmkt, Int.toNat_natCast]
    exact List.get?_concat_length s.market (mkListing uid it price)
  have hlen' : ((s.market.length : Int)) <
      (((sellOp s uid u idx price).1.market.length : Nat) : Int) := by
    rw [hmkt]
    simp [List.length_append]
  have hbuy := buy_present_eq (sellOp s uid u idx price).1 buyer bu
    (s.market.length : Int) bp (mkListing uid it price)
    (listedPlayer p idx.toNat) hbp' hbu (by positivity) hlen' hget'
    hfund hsp' (Ne.symm hne)
  have hsid : (mkListing uid it price).seller_id = uid := rfl
  refine ⟨by rw [hsell], hmkt, h3, by rw [hbuy]; rfl, ?_, ?_⟩
  · rw [hbuy, hsid]
    rw [pfind_pset_ne _ uid buyer _ hne]
    exact pfind_pset_self _ buyer _
  · rw [hbuy, hsid]
    unfold totalItems
    have e1 : pfind (pset (sellOp s uid u idx price).1.players buyer (boughtPlayer bp (mkListing uid it price))) uid = some (listedPlayer p idx.toNat) := by
      rw [pfind_pset_ne _ buyer uid _ (Ne.symm hne)]
      exact hsp'
    rw [sumBy_pset_present _ _ uid (listedPlayer p idx.toNat) _ e1,
        sumBy_pset_present _ _ buyer bp _ hbp']
    have e2 : ((((sellOp s uid u idx price).1.market.eraseIdx ((s.market.length : Int)).toNat).length : Nat) : Int) = ((s.market.length : Nat) : Int) := by
      rw [Int.toNat_natCast, hmkt]
      rw [length_eraseIdx_int (s.market ++ [mkListing uid it price]) s.market.length (by simp [List.length_append])]
      push_cast [List.length_append, List.length_singleton]
      ring
    rw [e2]
    have h3' : sumBy (fun q => ((q.items.length : Nat) : Int)) (sellOp s uid u idx price).1.players + (((sellOp s uid u idx price).1.market.length : Nat) : Int) = totalItems s := h3
    unfold totalItems at h3'
    rw [hmkt] at h3'
    push_cast [List.length_append, List.length_singleton] at h3'
    simp only [boughtPlayer, creditedPlayer, listedPlayer, List.length_append,
               List.length_singleton]
    push_cast
    linarith [h3']

/-- Witness for C8 (amended): alice lists `item1` for 100, bob buys it;
the total item count is 1 before and after, and bob receives exactly
`item1`. -/
theorem C8_item_conservation_witness :
    (sellOp sC8 1 "alice" 0 100).2 = .listed ∧
    (buyOp (sellOp sC8 1 "alice" 0 100).1 2 "bob" 0).2 =
      .bought item1 100 2 98 ∧
    totalItems (buyOp (sellOp sC8 1 "alice" 0 100).1 2 "bob" 0).1 =
      totalItems sC8 ∧
    totalItems sC8 = 1 := by
  have h := C8_item_conservation sC8 1 2 "alice" "bob" 0 100 pAliceItem
    pBobTrade item1 (by decide) (by decide) (by decide) (by decide)
    (by decide) (by decide) (by decide) (by decide) (by decide)
  refine ⟨h.1, ?_, ?_, rfl⟩
  · have h4 : (buyOp (sellOp sC8 1 "alice" 0 100).1 2 "bob" 0).2 =
        .bought item1 100 (buyFee (mkListing 1 item1 100))
          (sellerTake (mkListing 1 item1 100)) := h.2.2.2.1
    rw [h4]
    rfl
  · exact h.2.2.2.2.2

/-! ### The equipped-reference invariant -/

theorem foldl_pres {beta : Type} (P : List (Nat × Player) → Prop)
    (g : List (Nat × Player) → beta → List (Nat × Player))
    (hg : ∀ a b, P a → P (g a b)) :
    ∀ (l : List beta) (a : List (Nat × Player)), P a → P (l.foldl g a)
  | [], _, h => h
  | x :: l, a, h => foldl_pres P g hg l (g a x) (hg a x h)

theorem equipOkL_mono (eq : List (String × Option Nat)) (items l : List Item)
    (h : equipOkL eq items = true) : equipOkL eq (items ++ l) = true := by
  simp only [equipOkL, List.all_eq_true] at h ⊢
  rintro ⟨k, o⟩ hkv
  cases o with
  | none => rfl
  | some i =>
    have h3 : items.any (fun it => it.id == i) = true := h ⟨k, some i⟩ hkv
    show (items ++ l).any (fun it => it.id == i) = true
    simp only [List.any_append, h3, Bool.true_or]

theorem mem_setSlot : ∀ (eq : List (String × Option Nat)) (sl : String)
    (v : Option Nat) (kv : String × Option Nat),
    kv ∈ setSlot eq sl v → kv = (sl, v) ∨ kv ∈ eq
  | [], sl, v, kv, h => by
    simp only [setSlot, List.mem_singleton] at h
    exact Or.inl h
  | (k, x) :: rest, sl, v, kv, h => by
    by_cases hk : k = sl
    · simp only [setSlot, if_pos hk] at h
      rcases List.mem_cons.mp h with rfl | h2
      · exact Or.inl rfl
      · exact Or.inr (List.mem_cons_of_mem _ h2)
    · simp only [setSlot, if_neg hk] at h
      rcases List.mem_cons.mp h with rfl | h2
      · exact Or.inr (List.mem_cons_self _ _)
      · rcases mem_setSlot rest sl v kv h2 with h3 | h3
        · exact Or.inl h3
        · exact Or.inr (List.mem_cons_of_mem _ h3)

theorem equipOkL_setSlot (eq : List (String × Option Nat)) (items : List Item)
    (sl : String) (v : Option Nat) (h : equipOkL eq items = true)
    (hv : slotOkB items (sl, v) = true) :
    equipOkL (setSlot eq sl v) items = true := by
  simp only [equipOkL, List.all_eq_true] at h ⊢
  intro kv hkv
  rcases mem_setSlot eq sl v kv hkv with rfl | h2
  · exact hv
  · exact h kv h2

theorem pallEquip_pfind : ∀ (ps : List (Nat × Player)) (k : Nat) (p : Player),
    pallEquip ps = true → pfind ps k = some p →
    equipOkL p.equipped p.items = true
  | [], k, p, _, hf => by simp [pfind] at hf
  | (a, b) :: rest, k, p, h, hf => by
    simp only [pallEquip, List.all_cons, Bool.and_eq_true] at h
    by_cases ha : a = k
    · subst ha
      simp [pfind] at hf
      rw [← hf]
      exact h.1
    · simp only [pfind, if_neg ha] at hf
      exact pallEquip_pfind rest k p h.2 hf

theorem pallEquip_pset : ∀ (ps : List (Nat × Player)) (k : Nat) (v : Player),
    pallEquip ps = true → equipOkL v.equipped v.items = true →
    pallEquip (pset ps k v) = true
  | [], k, v, _, hv => by simp [pset, pallEquip, hv]
  | (a, b) :: rest, k, v, h, hv => by
    simp only [pallEquip, List.all_cons, Bool.and_eq_true] at h
    by_cases ha : a = k
    · simp only [pset, if_pos ha, pallEquip, List.all_cons, Bool.and_eq_true]
      exact ⟨hv, h.2⟩
    · simp only [pset, if_neg ha, pallEquip, List.all_cons, Bool.and_eq_true]
      exact ⟨h.1, pallEquip_pset rest k v h.2 hv⟩

theorem pallEquip_ensureP (ps : List (Nat × Player)) (k : Nat) (u : String)
    (h : pallEquip ps = true) : pallEquip (ensureP ps k u) = true := by
  unfold ensureP
  cases hk : pfind ps k with
  | none => exact pallEquip_pset ps k _ h rfl
  | some p =>
    apply pallEquip_pset ps k _ h
    show equipOkL p.equipped p.items = true
    exact pallEquip_pfind ps k p h hk

theorem pallEquip_addChest (ps : List (Nat × Player)) (k : Nat)
    (h : pallEquip ps = true) : pallEquip (addChest ps k) = true := by
  unfold addChest
  cases hk : pfind ps k with
  | none => exact h
  | some p =>
    apply pallEquip_pset ps k _ h
    show equipOkL p.equipped p.items = true
    exact pallEquip_pfind ps k p h hk

theorem pallEquip_creditSeller (ps : List (Nat × Player)) (sid : Nat)
    (take : Int) (h : pallEquip ps = true) :
    pallEquip (creditSeller ps sid take) = true := by
  unfold creditSeller
  cases hsp : pfind ps sid with
  | none => exact h
  | some sp =>
    apply pallEquip_pset ps sid _ h
    show equipOkL sp.equipped sp.items = true
    exact pallEquip_pfind ps sid sp h hsp

theorem pallEquip_giveItem (ps : List (Nat × Player)) (uid : Nat) (it : Item)
    (h : pallEquip ps = true) : pallEquip (giveItem ps uid it) = true := by
  unfold giveItem
  cases hbp : pfind ps uid with
  | none => exact h
  | some bp =>
    apply pallEquip_pset ps uid _ h
    show equipOkL bp.equipped (bp.items ++ [it]) = true
    exact equipOkL_mono bp.equipped bp.items _ (pallEquip_pfind ps uid bp h hbp)

theorem invEquip_join (s : GameState) (uid : Nat) (u : String)
    (h : invEquip s = true) : invEquip (joinOp s uid u).1 = true := by
  have hens : pallEquip (ensureP s.players uid u) = true :=
    pallEquip_ensureP s.players uid u h
  simp only [joinOp]
  split
  · exact hens
  · exact hens

theorem invEquip_winner (s : GameState) (isAdmin : Bool) (caller : Nat)
    (cn : String) (target : Option String) (h : invEquip s = true) :
    invEquip (winnerOp s isAdmin caller cn target).1 = true := by
  simp only [winnerOp]
  split
  · exact h
  · split
    · exact h
    · split
      · exact h
      · split
        · exact h
        · apply pallEquip_addChest
          apply foldl_pres (fun ps => pallEquip ps = true)
          · intro a b ha
            exact pallEquip_addChest _ _ (pallEquip_ensureP _ _ _ ha)
          · exact h

theorem invEquip_openChest (s : GameState) (uid : Nat) (u : String) (r : Roll)
    (h : invEquip s = true) : invEquip (open_chest s uid u r).1 = true := by
  have hens : pallEquip (ensureP s.players uid u) = true :=
    pallEquip_ensureP s.players uid u h
  simp only [open_chest]
  split
  · exact hens
  · next p hpf =>
    split
    · exact hens
    · apply pallEquip_pset _ _ _ hens
      show equipOkL p.equipped (p.items ++ _) = true
      exact equipOkL_mono p.equipped p.items _
        (pallEquip_pfind _ uid p hens hpf)

theorem invEquip_equip (s : GameState) (uid : Nat) (u : String) (idx : Int)
    (h : invEquip s = true) : invEquip (equipOp s uid u idx).1 = true := by
  have hens : pallEquip (ensureP s.players uid u) = true :=
    pallEquip_ensureP s.players uid u h
  simp only [equipOp]
  split
  · exact hens
  · next p hpf =>
    split
    · exact hens
    · split
      · exact hens
      · next it hget =>
        apply pallEquip_pset _ _ _ hens
        have hok : equipOkL p.equipped p.items = true :=
          pallEquip_pfind _ uid p hens hpf
        show equipOkL (setSlot p.equipped it.slot (some it.id)) p.items = true
        apply equipOkL_setSlot _ _ _ _ hok
        show p.items.any (fun x => x.id == it.id) = true
        refine List.any_eq_true.mpr ⟨it, List.get?_mem hget, ?_⟩
        simp

theorem invEquip_unequip (s : GameState) (uid : Nat) (u : String)
    (slot : String) (h : invEquip s = true) :
    invEquip (unequipOp s uid u slot).1 = true := by
  have hens : pallEquip (ensureP s.players uid u) = true :=
    pallEquip_ensureP s.players uid u h
  simp only [unequipOp]
  split
  · exact hens
  · next p hpf =>
    split
    · exact hens
    · split
      · exact hens
      · apply pallEquip_pset _ _ _ hens
        have hok : equipOkL p.equipped p.items = true :=
          pallEquip_pfind _ uid p hens hpf
        show equipOkL (setSlot p.equipped slot none) p.items = true
        exact equipOkL_setSlot _ _ _ _ hok rfl

theorem invEquip_buy (s : GameState) (uid : Nat) (u : String) (idx : Int)
    (h : invEquip s = true) : invEquip (buyOp s uid u idx).1 = true := by
  have hens : pallEquip (ensureP s.players uid u) = true :=
    pallEquip_ensureP s.players uid u h
  simp only [buyOp]
  split
  · exact hens
  · next p hpf =>
    split
    · exact hens
    · split
      · exact hens
      · next listing hget =>
        split
        · exact hens
        · apply pallEquip_giveItem
          apply pallEquip_creditSeller
          apply pallEquip_ensureP
          apply pallEquip_pset _ _ _ hens
          show equipOkL p.equipped p.items = true
          exact pallEquip_pfind _ uid p hens hpf

/-- C3 counterexample: after alice equips her only item and lists it for
sale, her trinket slot still references item id 1 while her items
collection is empty — `sell` leaves a dangling equipment reference, so
the invariant is not preserved by listing an equipped item. -/
theorem C3_equipped_reference_cex :
    (pfind sDangle.players 1).map
        (fun p => (getSlot p.equipped "trinket", p.items)) =
      some (some 1, []) ∧
    invEquip sDangle = false := by
  constructor <;> rfl

/-- C3 (amended): every operation except `list_item` preserves the
invariant that each occupied equipment slot of each player references an
item in that player's collection; `list_item` (`sell`) violates it by
popping the item without clearing its slot (the code tolerates the
dangling reference: `stats` prints "(missing)", `main.py:316`). -/
theorem C3_equipped_invariant_except_sell (s : GameState) (a : Action)
    (hinv : invEquip s = true)
    (hns : ∀ uid u i pr, a ≠ Action.sell uid u i pr) :
    invEquip (step s a) = true := by
  cases a with
  | join uid u => exact invEquip_join s uid u hinv
  | winner b c cn t => exact invEquip_winner s b c cn t hinv
  | openChest uid u r => exact invEquip_openChest s uid u r hinv
  | equip uid u i => exact invEquip_equip s uid u i hinv
  | unequip uid u sl => exact invEquip_unequip s uid u sl hinv
  | sell uid u i pr => exact absurd rfl (hns uid u i pr)
  | buy uid u i => exact invEquip_buy s uid u i hinv

/-- Witness for C3 (amended): equipping alice's item keeps the invariant
in the concrete state `sAlice`. -/
theorem C3_equipped_invariant_except_sell_witness :
    invEquip (step sAlice (.equip 1 "alice" 0)) = true :=
  C3_equipped_invariant_except_sell sAlice (.equip 1 "alice" 0)
    (by rfl) (fun uid u i pr h => Action.noConfusion h)

/-! ### Item-id uniqueness -/

theorem pallIds_pfind : ∀ (ps : List (Nat × Player)) (k : Nat) (p : Player),
    pallIds ps = true → pfind ps k = some p → (p.items.map Item.id).Nodup
  | [], k, p, _, hf => by simp [pfind] at hf
  | (a, b) :: rest, k, p, h, hf => by
    simp only [pallIds, List.all_cons, Bool.and_eq_true] at h
    by_cases ha : a = k
    · subst ha
      simp [pfind] at hf
      rw [← hf]
      exact of_decide_eq_true h.1
    · simp only [pfind, if_neg ha] at hf
      exact pallIds_pfind rest k p h.2 hf

theorem pallIds_pset : ∀ (ps : List (Nat × Player)) (k : Nat) (v : Player),
    pallIds ps = true → (v.items.map Item.id).Nodup →
    pallIds (pset ps k v) = true
  | [], k, v, _, hv => by simp [pset, pallIds, hv]
  | (a, b) :: rest, k, v, h, hv => by
    simp only [pallIds, List.all_cons, Bool.and_eq_true] at h
    by_cases ha : a = k
    · simp only [pset, if_pos ha, pallIds, List.all_cons, Bool.and_eq_true]
      exact ⟨decide_eq_true hv, h.2⟩
    · simp only [pset, if_neg ha, pallIds, List.all_cons, Bool.and_eq_true]
      exact ⟨h.1, pallIds_pset rest k v h.2 hv⟩

theorem pallIds_ensureP (ps : List (Nat × Player)) (k : Nat) (u : String)
    (h : pallIds ps = true) : pallIds (ensureP ps k u) = true := by
  unfold ensureP
  cases hk : pfind ps k with
  | none => exact pallIds_pset ps k _ h (by simp [freshPlayer])
  | some p =>
    apply pallIds_pset ps k _ h
    show (p.items.map Item.id).Nodup
    exact pallIds_pfind ps k p h hk

theorem pallIds_addChest (ps : List (Nat × Player)) (k : Nat)
    (h : pallIds ps = true) : pallIds (addChest ps k) = true := by
  unfold addChest
  cases hk : pfind ps k with
  | none => exact h
  | some p =>
    apply pallIds_pset ps k _ h
    show (p.items.map Item.id).Nodup
    exact pallIds_pfind ps k p h hk

theorem pallIds_creditSeller (ps : List (Nat × Player)) (sid : Nat)
    (take : Int) (h : pallIds ps = true) :
    pallIds (creditSeller ps sid take) = true := by
  unfold creditSeller
  cases hsp : pfind ps sid with
  | none => exact h
  | some sp =>
    apply pallIds_pset ps sid _ h
    show (sp.items.map Item.id).Nodup
    exact pallIds_pfind ps sid sp h hsp

theorem nodup_ids_append_fresh (p : Player)
    (h : (p.items.map Item.id).Nodup) (it : Item)
    (hgt : ∀ x ∈ p.items, x.id < it.id) :
    ((p.items ++ [it]).map Item.id).Nodup := by
  rw [List.map_append, List.map_singleton, List.nodup_append]
  refine ⟨h, List.nodup_singleton it.id, ?_⟩
  intro a ha hb
  simp only [List.mem_singleton] at hb
  subst hb
  obtain ⟨x, hx, hxa⟩ := List.mem_map.mp ha
  exact absurd hxa (ne_of_lt (hgt x hx))

theorem invIds_join (s : GameState) (uid : Nat) (u : String)
    (h : invIds s = true) : invIds (joinOp s uid u).1 = true := by
  have hens : pallIds (ensureP s.players uid u) = true :=
    pallIds_ensureP s.players uid u h
  simp only [joinOp]
  split
  · exact hens
  · exact hens

theorem invIds_winner (s : GameState) (isAdmin : Bool) (caller : Nat)
    (cn : String) (target : Option String) (h : invIds s = true) :
    invIds (winnerOp s isAdmin caller cn target).1 = true := by
  simp only [winnerOp]
  split
  · exact h
  · split
    · exact h
    · split
      · exact h
      · split
        · exact h
        · apply pallIds_addChest
          apply foldl_pres (fun ps => pallIds ps = true)
          · intro a b ha
            exact pallIds_addChest _ _ (pallIds_ensureP _ _ _ ha)
          · exact h

theorem invIds_openChest (s : GameState) (uid : Nat) (u : String) (r : Roll)
    (h : invIds s = true) : invIds (open_chest s uid u r).1 = true := by
  have hens : pallIds (ensureP s.players uid u) = true :=
    pallIds_ensureP s.players uid u h
  simp only [open_chest]
  split
  · exact hens
  · next p hpf =>
    split
    · exact hens
    · apply pallIds_pset _ _ _ hens
      show ((p.items ++ [_]).map Item.id).Nodup
      exact nodup_ids_append_fresh p (pallIds_pfind _ uid p hens hpf) _
        (new_item_id_gt p)

theorem invIds_equip (s : GameState) (uid : Nat) (u : String) (idx : Int)
    (h : invIds s = true) : invIds (equipOp s uid u idx).1 = true := by
  have hens : pallIds (ensureP s.players uid u) = true :=
    pallIds_ensureP s.players uid u h
  simp only [equipOp]
  split
  · exact hens
  · next p hpf =>
    split
    · exact hens
    · split
      · exact hens
      · apply pallIds_pset _ _ _ hens
        show (p.items.map Item.id).Nodup
        exact pallIds_pfind _ uid p hens hpf

theorem invIds_unequip (s : GameState) (uid : Nat) (u : String)
    (slot : String) (h : invIds s = true) :
    invIds (unequipOp s uid u slot).1 = true := by
  have hens : pallIds (ensureP s.players uid u) = true :=
    pallIds_ensureP s.players uid u h
  simp only [unequipOp]
  split
  · exact hens
  · next p hpf =>
    split
    · exact hens
    · split
      · exact hens
      · apply pallIds_pset _ _ _ hens
        show (p.items.map Item.id).Nodup
        exact pallIds_pfind _ uid p hens hpf

theorem invIds_sell (s : GameState) (uid : Nat) (u : String) (idx pr : Int)
    (h : invIds s = true) : invIds (sellOp s uid u idx pr).1 = true := by
  have hens : pallIds (ensureP s.players uid u) = true :=
    pallIds_ensureP s.players uid u h
  simp only [sellOp]
  split
  · exact hens
  · next p hpf =>
    split
    · exact hens
    · split
      · exact hens
      · apply pallIds_pset _ _ _ hens
        show ((p.items.eraseIdx idx.toNat).map Item.id).Nodup
        exact List.Nodup.sublist
          (List.Sublist.map Item.id (List.eraseIdx_sublist p.items idx.toNat))
          (pallIds_pfind _ uid p hens hpf)

/-- C4 counterexample: alice and bob each open one chest (each item gets
id 1); bob buys alice's listed item and ends up with two items sharing
id 1 — `buy` keeps the seller-allocated id, so ids are not unique within
the buyer's collection. -/
theorem C4_item_ids_cex :
    (pfind (run init dupRun).players 2).map (fun p => p.items.map Item.id) =
      some [1, 1] ∧
    invIds (run init dupRun) = false := by
  constructor <;> rfl

/-- C4 (amended): item ids stay unique within each player's collection
under every operation except `buy` — `open_chest` allocates max+1 (1 when
the collection is empty), strictly above every existing id, and
`list_item` only removes — but `buy` appends the purchased item with the
id the seller's `new_item_id` allocated, which can collide with an id the
buyer already holds. -/
theorem C4_item_ids_unique_except_buy (s : GameState) (a : Action)
    (hinv : invIds s = true)
    (hnb : ∀ uid u i, a ≠ Action.buy uid u i) :
    invIds (step s a) = true := by
  cases a with
  | join uid u => exact invIds_join s uid u hinv
  | winner b c cn t => exact invIds_winner s b c cn t hinv
  | openChest uid u r => exact invIds_openChest s uid u r hinv
  | equip uid u i => exact invIds_equip s uid u i hinv
  | unequip uid u sl => exact invIds_unequip s uid u sl hinv
  | sell uid u i pr => exact invIds_sell s uid u i pr hinv
  | buy uid u i => exact absurd rfl (hnb uid u i)

/-- Witness for C4 (amended): opening a second chest in `sAlice` keeps
the ids unique (the new item gets id 2). -/
theorem C4_item_ids_unique_except_buy_witness :
    invIds (step sAlice (.openChest 1 "alice" roll1)) = true :=
  C4_item_ids_unique_except_buy sAlice (.openChest 1 "alice" roll1)
    (by rfl) (fun uid u i h => Action.noConfusion h)

end Cashpool
